import Mathlib

/-!
Shallow embedding of the falba benchmark-result library
(`src/falba/model.py` and `src/falba/cli.py`) and proofs about its
documented behaviour.

Python dictionaries are modelled as association lists in insertion
order; Python sets as deduplicated lists; Python `None` (both as a fact
value and as the marker for an absent fact during the confound check) as
`Value.null`; floats as exact rationals.
-/

namespace Falba

/-- Scalar values carried by Facts and Metrics: string, integer, float
(modelled as an exact rational), boolean, or Python `None`. -/
inductive Value where
  | str (s : String)
  | int (i : Int)
  | rat (q : ℚ)
  | bool (b : Bool)
  | null
deriving Repr, DecidableEq

/-- `_BaseMetric` specialised to `Metric`: name, value, optional unit
(`model.py` lines 16-24). -/
structure Metric where
  name : String
  value : Value
  unit : Option String := none
deriving Repr, DecidableEq

/-- `_BaseMetric` specialised to `Fact` (`model.py` lines 16-28). -/
structure Fact where
  name : String
  value : Value
  unit : Option String := none
deriving Repr, DecidableEq

/-- Lookup in an association list modelling a Python `dict.get`. -/
def alookup {α : Type} : List (String × α) → String → Option α
  | [], _ => none
  | (k, v) :: rest, key => if k = key then some v else alookup rest key

/-- A `Result` (`model.py` lines 50-57): directory name, the
`test_name`/`result_id` split, the facts dict and the metrics list. -/
structure Result where
  result_dirname : String
  test_name : String
  result_id : String
  facts : List (String × Fact)
  metrics : List Metric
deriving Repr, DecidableEq

/-- The result database (`model.py` lines 100-103): dict from result
directory name to `Result`. -/
structure Db where
  results : List (String × Result)
deriving Repr, DecidableEq

/-- `Db.unique_facts` (`model.py` lines 117-122): the set of all fact
names across the database, as a deduplicated list. -/
def unique_facts (db : Db) : List String :=
  ((db.results.map Prod.snd).map (fun r => r.facts.map Prod.fst)).flatten.dedup

/-- `rsplit(":", maxsplit=1)` as used by `Result.__post_init__`
(`model.py` line 60): split on the last colon; `none` models the
`ValueError` raised when the name has no colon. -/
def rsplitColon (s : String) : Option (String × String) :=
  match (s.splitOn ":").reverse with
  | [] => none
  | [_] => none
  | last :: rest => some (String.intercalate ":" rest.reverse, last)

/-- An artifact handle (`model.py` lines 31-37): just a path. -/
structure Artifact where
  path : String
deriving Repr, DecidableEq

/-- An enricher (`model.py` line 47): a named function from an artifact
to a pair of fact and metric sequences.  The source keys the duplicate
error message on the function's `__name__`, so we carry the name. -/
structure Enricher where
  name : String
  run : Artifact → List Fact × List Metric

/-- Errors raised inside the `Result.read_dir` enrichment loop
(`model.py` lines 75-90): a fact colliding with an earlier fact of the
same name, or a metric colliding with an earlier fact of the same name.
Both carry the current enricher, the earlier enricher and the name. -/
inductive EnrichError where
  | dupFact (enricher other name : String)
  | dupMetricOverFact (enricher other name : String)
deriving Repr, DecidableEq

/-- The mutable state of the enrichment loop in `Result.read_dir`
(`model.py` lines 69-71): `fact_to_enricher`, `facts`, `metrics`. -/
structure EnrichState where
  fact_to_enricher : List (String × String)
  facts : List (String × Fact)
  metrics : List Metric
deriving Repr, DecidableEq

/-- Processing one produced fact (`model.py` lines 75-82): error if
`fact_to_enricher` already has the name, else record the fact and its
producer. -/
def processFact (enr : String) (st : EnrichState) (f : Fact) :
    Except EnrichError EnrichState :=
  match alookup st.fact_to_enricher f.name with
  | some other => Except.error (EnrichError.dupFact enr other f.name)
  | none =>
      Except.ok
        { st with
          facts := st.facts ++ [(f.name, f)]
          fact_to_enricher := st.fact_to_enricher ++ [(f.name, enr)] }

/-- Processing one produced metric (`model.py` lines 83-90): error if a
fact of the same name exists in `fact_to_enricher`, else append the
metric.  Metrics are never recorded in `fact_to_enricher`. -/
def processMetric (enr : String) (st : EnrichState) (m : Metric) :
    Except EnrichError EnrichState :=
  match alookup st.fact_to_enricher m.name with
  | some other => Except.error (EnrichError.dupMetricOverFact enr other m.name)
  | none => Except.ok { st with metrics := st.metrics ++ [m] }

/-- Fold `processFact` over the facts returned by one enricher call. -/
def processFacts (enr : String) (st : EnrichState) :
    List Fact → Except EnrichError EnrichState
  | [] => Except.ok st
  | f :: fs =>
      match processFact enr st f with
      | Except.error e => Except.error e
      | Except.ok st1 => processFacts enr st1 fs

/-- Fold `processMetric` over the metrics returned by one enricher call. -/
def processMetrics (enr : String) (st : EnrichState) :
    List Metric → Except EnrichError EnrichState
  | [] => Except.ok st
  | m :: ms =>
      match processMetric enr st m with
      | Except.error e => Except.error e
      | Except.ok st1 => processMetrics enr st1 ms

/-- One `enricher(artifact)` call in the loop body (`model.py` lines
74-90): process the returned facts, then the returned metrics. -/
def enrichOne (e : Enricher) (a : Artifact) (st : EnrichState) :
    Except EnrichError EnrichState :=
  match processFacts e.name st (e.run a).1 with
  | Except.error err => Except.error err
  | Except.ok st1 => processMetrics e.name st1 (e.run a).2

/-- The inner `for artifact in artifacts.values()` loop (`model.py`
line 73). -/
def runOverArtifacts (e : Enricher) (st : EnrichState) :
    List Artifact → Except EnrichError EnrichState
  | [] => Except.ok st
  | a :: as_ =>
      match enrichOne e a st with
      | Except.error err => Except.error err
      | Except.ok st1 => runOverArtifacts e st1 as_

/-- The outer `for enricher in enrichers` loop (`model.py` line 72),
starting from a given state. -/
def runEnrichersFrom (st : EnrichState) :
    List Enricher → List Artifact → Except EnrichError EnrichState
  | [], _ => Except.ok st
  | e :: es, arts =>
      match runOverArtifacts e st arts with
      | Except.error err => Except.error err
      | Except.ok st1 => runEnrichersFrom st1 es arts

/-- The whole enrichment phase of `Result.read_dir` (`model.py` lines
68-90), starting from empty `fact_to_enricher`, `facts`, `metrics`. -/
def runEnrichers (es : List Enricher) (arts : List Artifact) :
    Except EnrichError EnrichState :=
  runEnrichersFrom ⟨[], [], []⟩ es arts

/-- Whether an `Except` computation succeeded. -/
def exceptIsOk {ε α : Type} : Except ε α → Bool
  | Except.ok _ => true
  | Except.error _ => false

/-- Every fact name produced by any enricher on any artifact during a
run, in processing order (outer loop over enrichers, inner loop over
artifacts, then the facts of that call in order). -/
def producedFactNames (es : List Enricher) (arts : List Artifact) : List String :=
  (es.map (fun e =>
    (arts.map (fun a => ((e.run a).1).map Fact.name)).flatten)).flatten

/-- An on-disk directory entry handed to `Result.read_dir`
(`model.py` lines 63-66): its basename, whether it is a directory, and
the files found under its `artifacts/` subtree. -/
structure ResultDir where
  name : String
  isDir : Bool
  artifacts : List Artifact

/-- Errors surfaced while loading a result store from disk. -/
inductive LoadError where
  | notAResultDirectory (name : String)
  | malformedResultName (name : String)
  | enrich (e : EnrichError)
deriving Repr, DecidableEq

/-- `Result.read_dir` (`model.py` lines 62-97): reject non-directories,
run the enrichers, then construct the `Result`, whose `__post_init__`
splits the directory name on the last colon. -/
def resultReadDir (es : List Enricher) (d : ResultDir) :
    Except LoadError Result :=
  if d.isDir = false then Except.error (LoadError.notAResultDirectory d.name)
  else
    match runEnrichers es d.artifacts with
    | Except.error e => Except.error (LoadError.enrich e)
    | Except.ok st =>
        match rsplitColon d.name with
        | none => Except.error (LoadError.malformedResultName d.name)
        | some (tn, rid) =>
            Except.ok
              { result_dirname := d.name, test_name := tn, result_id := rid
                facts := st.facts, metrics := st.metrics }

/-- The loop body of `Db.read_dir` (`model.py` lines 107-111).  The
source's skip condition is `if dire.name == "results.json"`, i.e. it
tests the name of the ROOT directory `dire`, not the name of the child
entry `p`; this is reproduced exactly. -/
def dbReadDirAux (es : List Enricher) (rootName : String)
    (acc : List (String × Result)) :
    List ResultDir → Except LoadError (List (String × Result))
  | [] => Except.ok acc
  | d :: ds =>
      if rootName = "results.json" then dbReadDirAux es rootName acc ds
      else
        match resultReadDir es d with
        | Except.error e => Except.error e
        | Except.ok r => dbReadDirAux es rootName (acc ++ [(d.name, r)]) ds

/-- `Db.read_dir` (`model.py` lines 105-115): iterate the root's
children, build a `Result` for each, collect them keyed by child name. -/
def dbReadDir (es : List Enricher) (rootName : String)
    (children : List ResultDir) : Except LoadError (List (String × Result)) :=
  dbReadDirAux es rootName [] children

/-- `include_result` (`cli.py` lines 57-61): a result is kept unless
some filter key is present among its facts with a different value. -/
def include_result (facts_eq : List (String × Value)) (r : Result) : Bool :=
  facts_eq.all (fun p =>
    match alookup r.facts p.1 with
    | some f => decide (f.value = p.2)
    | none => true)

/-- The equality-filtering step of `compare` (`cli.py` line 63). -/
def filterResults (db : Db) (facts_eq : List (String × Value)) : List Result :=
  (db.results.map Prod.snd).filter (include_result facts_eq)

/-- Whether the confound loop skips this fact name (`cli.py` line 68):
it is the experiment fact, a key of `facts_eq`, or ignored. -/
def skippedFact (experiment_fact : String) (facts_eq : List (String × Value))
    (ignore_facts : List String) (fact : String) : Bool :=
  decide (fact = experiment_fact) || (facts_eq.map Prod.fst).contains fact ||
    ignore_facts.contains fact

/-- The `vals` set built for one fact across the filtered results
(`cli.py` lines 70-75): the fact's value on each result, with `None`
for a result lacking the fact, deduplicated (Python `set`). -/
def factVals (results : List Result) (fact : String) : List Value :=
  (results.map (fun r =>
    match alookup r.facts fact with
    | some f => f.value
    | none => Value.null)).dedup

/-- The confound check of `compare` (`cli.py` lines 67-80): scan the
extant fact names; for the first non-skipped fact whose value set has
more than one element, report it together with its observed values. -/
def confound_check (extant_facts : List String) (experiment_fact : String)
    (facts_eq : List (String × Value)) (ignore_facts : List String)
    (results : List Result) : Option (String × List Value) :=
  match extant_facts with
  | [] => none
  | fact :: rest =>
      if skippedFact experiment_fact facts_eq ignore_facts fact then
        confound_check rest experiment_fact facts_eq ignore_facts results
      else if 1 < (factVals results fact).length then
        some (fact, factVals results fact)
      else confound_check rest experiment_fact facts_eq ignore_facts results

/-- One row of `Db.flat_df` (`model.py` lines 142-151): the fixed
columns plus this result's fact columns. -/
structure FlatRow where
  result_id : String
  test_name : String
  metric : String
  value : Value
  unit : String
  factCols : List (String × Value)
deriving Repr, DecidableEq

/-- The row built for one (result, metric) pair (`model.py` lines
142-150): `metric.unit or ""` maps a missing unit to the empty string;
the fact columns are keyed by `fact.name`. -/
def flatRowOf (r : Result) (m : Metric) : FlatRow :=
  { result_id := r.result_id, test_name := r.test_name, metric := m.name
    value := m.value, unit := m.unit.getD ""
    factCols := r.facts.map (fun p => (p.2.name, p.2.value)) }

/-- `Db.flat_df` (`model.py` lines 137-153): one row per (result,
metric) pair, iterating results then that result's metrics. -/
def flat_df (db : Db) : List FlatRow :=
  ((db.results.map Prod.snd).map (fun r => r.metrics.map (flatRowOf r))).flatten

/-- Comparator errors (`cli.py`, `compare`). -/
inductive CompareError where
  | unknownFact (missing available : List String)
  | unresolvedConfound (fact : String) (vals : List Value)
  | noResults
  | unknownMetric (metric : String) (available : List String)
  | multipleTests (names : List String)
deriving Repr, DecidableEq

/-- The metric-name filtering step of `compare` (`cli.py` lines 91-98):
keep rows of the requested metric; if none remain, report the available
metrics — computed, as in the source, from the ALREADY-FILTERED frame
`df` (the variable was reassigned on line 92 before line 94 reads it). -/
def metric_filter (df : List FlatRow) (metric : String) :
    Except CompareError (List FlatRow) :=
  let df2 := df.filter (fun r => decide (r.metric = metric))
  if df2.length = 0 then
    Except.error (CompareError.unknownMetric metric ((df2.map FlatRow.metric).dedup))
  else Except.ok df2

/-- The fact-column value of a row, `null` when the column is absent. -/
def rowFactVal (row : FlatRow) (fact : String) : Value :=
  (alookup row.factCols fact).getD Value.null

/-- The null-value filter of `compare` (`cli.py` line 122):
`df.filter(pl.col("value").is_not_null())`. -/
def dropNullValues (df : List FlatRow) : List FlatRow :=
  df.filter (fun r => decide (¬ r.value = Value.null))

/-- The rows grouped under one experiment-fact value by
`df.group_by(pl.col(experiment_fact))` (`cli.py` line 141). -/
def groupRows (df : List FlatRow) (experiment_fact : String) (fv : Value) :
    List FlatRow :=
  df.filter (fun r => decide (rowFactVal r experiment_fact = fv))

/-- The group handed to the statistics and histogram code (`cli.py`
lines 139-168): the null filter of line 122 runs before the grouping of
line 141. -/
def compareGroup (df : List FlatRow) (experiment_fact : String) (fv : Value) :
    List FlatRow :=
  groupRows (dropNullValues df) experiment_fact fv

/-- `plot_width` (`cli.py` line 131). -/
def plot_width : Nat := 65

/-- `bin_step = max_value / plot_width` (`cli.py` line 133), over exact
rationals. -/
def bin_step (max_value : ℚ) : ℚ := max_value / (plot_width : ℚ)

/-- `bin_edges = [j * bin_step for j in range(plot_width + 1)]`
(`cli.py` line 136). -/
def bin_edges (max_value : ℚ) : List ℚ :=
  (List.range (plot_width + 1)).map (fun j : ℕ => (j : ℚ) * bin_step max_value)

/-- One input file offered to `import_result` (`cli.py` lines 188-196):
its eventual path relative to `artifacts/` and its byte content. -/
structure InputFile where
  relpath : String
  content : List Nat
deriving Repr, DecidableEq

/-- Abstract stand-in for SHA-256 (`cli.py` lines 199-205): a per-file
digest and a hex digest of a byte string.  The source's one-way hash is
not reimplemented; only its data flow (digest each file, hash the
concatenation of the per-file digests) is modelled. -/
structure HashModel where
  fileDigest : List Nat → List Nat
  hexCombine : List Nat → String

/-- The store directory name computed by `import_result` (`cli.py`
lines 198-208): `f"{test_name}:{hash.hexdigest()[:12]}"`, where the
hash is fed the digest of each input file in order.  It depends only on
the test name and the input files, never on the store. -/
def result_dirname_of (hm : HashModel) (test_name : String)
    (files : List InputFile) : String :=
  test_name ++ ":" ++
    (hm.hexCombine ((files.map (fun f => hm.fileDigest f.content)).flatten)).take 12

/-- Import failure: the target result directory already exists. -/
inductive ImportError where
  | duplicateResult (dirname : String)
deriving Repr, DecidableEq

/-- The store as a map from result directory name to its artifact files
(relative path to content). -/
abbrev Store := List (String × List (String × List Nat))

/-- `import_result` (`cli.py` lines 177-221): compute the directory
name from the file contents, then `os.mkdir(result_dir)` — which fails
if the directory already exists, before any file is copied — then copy
every enumerated file under `artifacts/`.  Returns the store after the
call together with the outcome. -/
def import_result (hm : HashModel) (store : Store) (test_name : String)
    (files : List InputFile) : Store × Except ImportError Unit :=
  if (store.map Prod.fst).contains (result_dirname_of hm test_name files) then
    (store, Except.error (ImportError.duplicateResult
      (result_dirname_of hm test_name files)))
  else
    (store ++ [(result_dirname_of hm test_name files,
        files.map (fun f => (f.relpath, f.content)))],
      Except.ok ())

/-- A Python runtime value as seen by `Artifact.__post_init__`
(`model.py` lines 35-37): the expression `self.path.exists` is an
attribute access that yields the BOUND METHOD object — it is never
called — and a bound method is always truthy in Python. -/
inductive PyVal where
  | boundMethod (receiver methodName : String)
  | ofBool (b : Bool)
deriving Repr, DecidableEq

/-- Python truthiness for the values above: a bound method object is
always truthy. -/
def pyTruthy : PyVal → Bool
  | PyVal.boundMethod _ _ => true
  | PyVal.ofBool b => b

/-- The value of the expression `self.path.exists` in
`Artifact.__post_init__` (`model.py` line 36): the bound method, not
the result of calling it. -/
def pathExistsAttribute (a : Artifact) : PyVal :=
  PyVal.boundMethod a.path "exists"

/-- `Artifact.__post_init__` (`model.py` lines 35-37): raise when
`not self.path.exists` is true, i.e. when the bound-method object is
falsy. -/
def artifactPostInit (a : Artifact) : Except String Artifact :=
  if pyTruthy (pathExistsAttribute a) = false then
    Except.error (a.path ++ " doesn't exist, can't create artifact")
  else Except.ok a

/-- `Artifact.content` (`model.py` lines 39-40): read the file's bytes;
this is where a missing file actually surfaces as an error.  The disk
is modelled as a partial map from path to bytes. -/
def artifactContent (disk : String → Option (List Nat)) (a : Artifact) :
    Except String (List Nat) :=
  match disk a.path with
  | some bytes => Except.ok bytes
  | none => Except.error ("No such file or directory: " ++ a.path)

/-- C9: constructing an Artifact never fails, even when the given path
does not exist on disk: `Artifact.__post_init__` tests the truthiness
of the bound-method object `self.path.exists` (never calling it), which
is always truthy, so the `ValueError` branch is unreachable and a
missing file only surfaces as an error when `content()` is called. -/
theorem artifact_init_never_fails (disk : String → Option (List Nat))
    (a : Artifact) (h : disk a.path = none) :
    pyTruthy (pathExistsAttribute a) = true ∧
      artifactPostInit a = Except.ok a ∧
      artifactContent disk a =
        Except.error ("No such file or directory: " ++ a.path) := by
  refine ⟨rfl, rfl, ?_⟩
  simp [artifactContent, h]

/-- Witness for `artifact_init_never_fails` at a concrete missing
path. -/
theorem artifact_init_never_fails_witness :
    (fun _ : String => (none : Option (List Nat))) "missing.json" = none ∧
      artifactPostInit ⟨"missing.json"⟩ = Except.ok ⟨"missing.json"⟩ :=
  ⟨rfl,
    (artifact_init_never_fails (fun _ => none) ⟨"missing.json"⟩ rfl).2.1⟩

/-- C5 (code bug): when no row matches the target metric, `compare`
computes the "available metrics" from the ALREADY-FILTERED (hence
empty) frame, so the reported list is always empty even though the
selected results do have metrics.  Here the table has one row with
metric `"a"`, the target is `"b"`, and the error carries `[]` while the
metrics actually available are `["a"]`. -/
theorem metric_filter_reports_empty_available :
    metric_filter
        [{ result_id := "r1", test_name := "t", metric := "a",
           value := Value.int 1, unit := "", factCols := [] }] "b" =
      Except.error (CompareError.unknownMetric "b" []) ∧
    (([{ result_id := "r1", test_name := "t", metric := "a",
         value := Value.int 1, unit := "", factCols := [] }] :
        List FlatRow).map FlatRow.metric).dedup = ["a"] :=
  ⟨rfl, rfl⟩

/-- C3 (code bug): the skip condition in `Db.read_dir` tests the name
of the ROOT directory (`dire.name`), not the child entry, so a
reserved `results.json` file at the store root is NOT skipped — it is
handed to `Result.read_dir`, which fails because it is not a
directory.  Conversely, a root directory itself named `results.json`
skips every child. -/
theorem db_read_dir_does_not_skip_results_json :
    dbReadDir [] "results"
        [⟨"results.json", false, []⟩, ⟨"sometest:abc123", true, []⟩] =
      Except.error (LoadError.notAResultDirectory "results.json") ∧
    dbReadDir [] "results.json" [⟨"sometest:abc123", true, []⟩] =
      Except.ok [] :=
  ⟨rfl, rfl⟩

/-- C4: when the computed `test_name:result_id` directory already
exists in the store, import fails with a duplicate-result error and the
store — in particular the existing result directory — is returned
unchanged; the directory name is `result_dirname_of`, computed from the
input files alone, before anything is copied. -/
theorem import_result_duplicate_fails_unchanged (hm : HashModel)
    (store : Store) (test_name : String) (files : List InputFile)
    (h : (store.map Prod.fst).contains
      (result_dirname_of hm test_name files) = true) :
    import_result hm store test_name files =
      (store, Except.error (ImportError.duplicateResult
        (result_dirname_of hm test_name files))) := by
  unfold import_result
  rw [h]
  simp

/-- Witness for `import_result_duplicate_fails_unchanged`: a store
already holding the directory the hash model assigns to the import. -/
theorem import_result_duplicate_fails_unchanged_witness :
    ((([("t:0123456789ab", [])] : Store).map Prod.fst).contains
        (result_dirname_of ⟨id, fun _ => "0123456789abcdef"⟩ "t" []) = true) ∧
      import_result ⟨id, fun _ => "0123456789abcdef"⟩
          [("t:0123456789ab", [])] "t" [] =
        ([("t:0123456789ab", [])],
          Except.error (ImportError.duplicateResult "t:0123456789ab")) :=
  ⟨rfl,
    import_result_duplicate_fails_unchanged ⟨id, fun _ => "0123456789abcdef"⟩
      [("t:0123456789ab", [])] "t" [] rfl⟩

theorem include_result_eq_true_iff (facts_eq : List (String × Value))
    (r : Result) :
    include_result facts_eq r = true ↔
      ∀ p ∈ facts_eq, ∀ f : Fact, alookup r.facts p.1 = some f →
        f.value = p.2 := by
  simp only [include_result, List.all_eq_true]
  constructor
  · intro h p hp f hf
    have hx := h p hp
    rw [hf] at hx
    simpa using hx
  · intro h p hp
    cases hfa : alookup r.facts p.1 with
    | none => simp
    | some f => simpa using h p hp f hfa

/-- C6: equality filtering keeps a Result if and only if it is in the
database and, for every filter key that is present as a Fact on that
Result, the Fact's value equals the required value; a Result lacking
the filter-key Fact passes the filter. -/
theorem compare_equality_filter (db : Db) (facts_eq : List (String × Value))
    (r : Result) :
    r ∈ filterResults db facts_eq ↔
      r ∈ db.results.map Prod.snd ∧
        ∀ p ∈ facts_eq, ∀ f : Fact, alookup r.facts p.1 = some f →
          f.value = p.2 := by
  rw [filterResults, List.mem_filter, include_result_eq_true_iff]

/-- Witness for `compare_equality_filter`: a Result with no facts at
all passes the filter `kernel_version = "6.1"`. -/
theorem compare_equality_filter_witness :
    (⟨"t:1", "t", "1", [], []⟩ : Result) ∈
      filterResults ⟨[("t:1", ⟨"t:1", "t", "1", [], []⟩)]⟩
        [("kernel_version", Value.str "6.1")] := by
  refine (compare_equality_filter _ _ _).mpr ⟨by simp, ?_⟩
  intro p hp f hf
  simp [alookup] at hf

/-- Helper: indexing into `(List.range n).map f` with a default. -/
theorem getD_range_map (f : ℕ → ℚ) (n i : ℕ) (h : i < n) :
    ((List.range n).map f).getD i 0 = f i := by
  rw [List.getD_eq_getElem?_getD, List.getElem?_map, List.getElem?_range h]
  rfl

/-- C8: for maximum metric value `M ≥ 0`, the bin-edge list has exactly
`plot_width + 1 = 66` points, consecutive edges differ by the constant
step `M / 65`, the edges are monotonically non-decreasing, the first
edge is `0` and the last edge is `M`. -/
theorem bin_edges_spec (M : ℚ) (h : 0 ≤ M) :
    (bin_edges M).length = plot_width + 1 ∧ plot_width + 1 = 66 ∧
      (∀ i : ℕ, i < plot_width →
        (bin_edges M).getD (i + 1) 0 - (bin_edges M).getD i 0 = M / 65) ∧
      (bin_edges M).Chain' (fun a b => a ≤ b) ∧
      (bin_edges M).getD 0 1 = 0 ∧
      (bin_edges M).getLast? = some M := by
  have hpw : plot_width = 65 := rfl
  have h65 : ((plot_width : ℚ)) = 65 := by norm_num [plot_width]
  refine ⟨by simp [bin_edges], rfl, ?_, ?_, ?_, ?_⟩
  · intro i hi
    rw [bin_edges, getD_range_map _ _ _ (by omega),
      getD_range_map _ _ _ (by omega), bin_step, h65]
    push_cast
    ring
  · rw [bin_edges, List.chain'_map]
    have : plot_width + 1 = Nat.succ 65 := rfl
    rw [this, List.chain'_range_succ]
    intro m _
    have hstep : 0 ≤ bin_step M := by
      rw [bin_step, h65]
      positivity
    have hm : (m : ℚ) ≤ (Nat.succ m : ℚ) := by push_cast; linarith
    exact mul_le_mul_of_nonneg_right hm hstep
  · rw [bin_edges, List.getD_eq_getElem?_getD, List.getElem?_map,
      List.getElem?_range (by omega : 0 < plot_width + 1)]
    simp
  · have hlen : (bin_edges M).length = 66 := by simp [bin_edges, plot_width]
    rw [List.getLast?_eq_getElem?, hlen]
    rw [bin_edges, List.getElem?_map,
      List.getElem?_range (by omega : 66 - 1 < plot_width + 1)]
    simp only [Option.map_some']
    congr 1
    rw [bin_step, h65]
    push_cast
    field_simp

/-- Witness for `bin_edges_spec` at `M = 130`. -/
theorem bin_edges_spec_witness :
    (0 : ℚ) ≤ 130 ∧ (bin_edges 130).getLast? = some 130 :=
  ⟨by norm_num, (bin_edges_spec 130 (by norm_num)).2.2.2.2.2⟩

/-- C7: the flattened table has exactly one row per (Result, Metric)
pair — its row count equals the sum of Metric counts across Results —
and each row carries that Result's `result_id` and `test_name`, the
Metric's name, value and unit, and Fact columns matching that Result's
Fact map exactly. -/
theorem flat_df_rows (db : Db) :
    (flat_df db).length =
        ((db.results.map Prod.snd).map (fun r => r.metrics.length)).sum ∧
      ∀ row ∈ flat_df db, ∃ r ∈ db.results.map Prod.snd, ∃ m ∈ r.metrics,
        row.result_id = r.result_id ∧ row.test_name = r.test_name ∧
          row.metric = m.name ∧ row.value = m.value ∧
          row.unit = m.unit.getD "" ∧
          row.factCols = r.facts.map (fun p => (p.2.name, p.2.value)) := by
  constructor
  · rw [flat_df, List.length_flatten, List.map_map]
    congr 1
    apply List.map_congr_left
    intro r _
    simp
  · intro row hrow
    rw [flat_df, List.mem_flatten] at hrow
    obtain ⟨l, hl, hrl⟩ := hrow
    rw [List.mem_map] at hl
    obtain ⟨r, hr, rfl⟩ := hl
    rw [List.mem_map] at hrl
    obtain ⟨m, hm, rfl⟩ := hrl
    exact ⟨r, hr, m, hm, rfl, rfl, rfl, rfl, rfl, rfl⟩

/-- Witness for `flat_df_rows`: the row count of a concrete database
with one result holding two metrics. -/
theorem flat_df_rows_witness :
    (flat_df ⟨[("t:1",
        ⟨"t:1", "t", "1", [],
          [⟨"latency_ns", Value.int 3, none⟩,
           ⟨"latency_ns", Value.int 4, none⟩]⟩)]⟩).length =
      ((([("t:1",
        (⟨"t:1", "t", "1", [],
          [⟨"latency_ns", Value.int 3, none⟩,
           ⟨"latency_ns", Value.int 4, none⟩]⟩ : Result))] :
          List (String × Result)).map Prod.snd).map
        (fun r => r.metrics.length)).sum :=
  (flat_df_rows _).1

/-- C10: `compare` removes every null-valued row before grouping, so
the group used for the statistics and the histogram is exactly the
group of the unfiltered rows restricted to non-null metric values — in
particular every row it contains has a non-null value. -/
theorem compare_group_null_filter (df : List FlatRow)
    (experiment_fact : String) (fv : Value) :
    compareGroup df experiment_fact fv =
        (groupRows df experiment_fact fv).filter
          (fun r => decide (¬ r.value = Value.null)) ∧
      ∀ row ∈ compareGroup df experiment_fact fv, row.value ≠ Value.null := by
  constructor
  · rw [compareGroup, groupRows, dropNullValues, groupRows, List.filter_comm]
  · intro row hrow
    rw [compareGroup, groupRows, List.mem_filter] at hrow
    have := List.of_mem_filter hrow.1
    simpa using this

/-- Witness for `compare_group_null_filter`: a concrete table with one
null-valued and one non-null row under the same experiment-fact
value. -/
theorem compare_group_null_filter_witness :
    compareGroup
        [{ result_id := "r1", test_name := "t", metric := "m",
           value := Value.null, unit := "",
           factCols := [("mode", Value.str "on")] },
         { result_id := "r2", test_name := "t", metric := "m",
           value := Value.int 7, unit := "",
           factCols := [("mode", Value.str "on")] }]
        "mode" (Value.str "on") =
      (groupRows
        [{ result_id := "r1", test_name := "t", metric := "m",
           value := Value.null, unit := "",
           factCols := [("mode", Value.str "on")] },
         { result_id := "r2", test_name := "t", metric := "m",
           value := Value.int 7, unit := "",
           factCols := [("mode", Value.str "on")] }]
        "mode" (Value.str "on")).filter
        (fun r => decide (¬ r.value = Value.null)) :=
  (compare_group_null_filter _ _ _).1

/-- C1: after equality filtering, the confound check fails — reporting
some fact together with its observed values — if and only if some fact
name other than the experiment fact, the filter keys and the ignored
set takes more than one distinct value across the filtered results
(absence counted as a distinct null value); and whatever it reports is
such a fact with exactly its observed value set. -/
theorem confound_check_iff (extant_facts : List String)
    (experiment_fact : String) (facts_eq : List (String × Value))
    (ignore_facts : List String) (results : List Result) :
    ((confound_check extant_facts experiment_fact facts_eq ignore_facts
        results).isSome ↔
      ∃ fact ∈ extant_facts,
        skippedFact experiment_fact facts_eq ignore_facts fact = false ∧
          1 < (factVals results fact).length) ∧
    ∀ fact vals,
      confound_check extant_facts experiment_fact facts_eq ignore_facts
          results = some (fact, vals) →
        fact ∈ extant_facts ∧
          skippedFact experiment_fact facts_eq ignore_facts fact = false ∧
          vals = factVals results fact ∧ 1 < vals.length := by
  induction extant_facts with
  | nil => simp [confound_check]
  | cons fact0 rest ih =>
      rw [confound_check]
      by_cases hskip : skippedFact experiment_fact facts_eq ignore_facts fact0
      · rw [if_pos hskip]
        constructor
        · rw [ih.1]
          constructor
          · rintro ⟨f, hf, hns, hlen⟩
            exact ⟨f, List.mem_cons_of_mem _ hf, hns, hlen⟩
          · rintro ⟨f, hf, hns, hlen⟩
            rcases List.mem_cons.mp hf with rfl | hf2
            · rw [hskip] at hns; cases hns
            · exact ⟨f, hf2, hns, hlen⟩
        · intro f vals hsome
          obtain ⟨hmem, hrest⟩ := ih.2 f vals hsome
          exact ⟨List.mem_cons_of_mem _ hmem, hrest⟩
      · rw [if_neg hskip]
        rw [Bool.not_eq_true] at hskip
        by_cases hlen : 1 < (factVals results fact0).length
        · rw [if_pos hlen]
          constructor
          · simp only [Option.isSome_some, true_iff]
            exact ⟨fact0, List.mem_cons_self _ _, hskip, hlen⟩
          · intro f vals hsome
            rw [Option.some_inj] at hsome
            obtain ⟨rfl, rfl⟩ := Prod.mk.injEq .. ▸ hsome
            exact ⟨List.mem_cons_self _ _, hskip, rfl, hlen⟩
        · rw [if_neg hlen]
          constructor
          · rw [ih.1]
            constructor
            · rintro ⟨f, hf, hns, hl⟩
              exact ⟨f, List.mem_cons_of_mem _ hf, hns, hl⟩
            · rintro ⟨f, hf, hns, hl⟩
              rcases List.mem_cons.mp hf with rfl | hf2
              · exact absurd hl hlen
              · exact ⟨f, hf2, hns, hl⟩
          · intro f vals hsome
            obtain ⟨hmem, hrest⟩ := ih.2 f vals hsome
            exact ⟨List.mem_cons_of_mem _ hmem, hrest⟩

/-- Witness for `confound_check_iff`: two results with identical facts
except `os_release_variant_id` (the experiment fact) and
`kernel_version`; comparing without ignoring `kernel_version`
reports a confound. -/
theorem confound_check_iff_witness :
    (confound_check ["os_release_variant_id", "kernel_version"]
        "os_release_variant_id" [] []
        [⟨"t:1", "t", "1",
          [("os_release_variant_id",
              ⟨"os_release_variant_id", Value.str "asi-on", none⟩),
            ("kernel_version", ⟨"kernel_version", Value.str "6.1", none⟩)],
          []⟩,
         ⟨"t:2", "t", "2",
          [("os_release_variant_id",
              ⟨"os_release_variant_id", Value.str "asi-off", none⟩),
            ("kernel_version", ⟨"kernel_version", Value.str "6.2", none⟩)],
          []⟩]).isSome :=
  (confound_check_iff _ _ _ _ _).1.mpr
    ⟨"kernel_version", by decide, by decide, by decide⟩

/-- The fact names currently registered in the provenance map. -/
def enricherDom (st : EnrichState) : List String :=
  st.fact_to_enricher.map Prod.fst

theorem alookup_eq_none_iff {α : Type} (l : List (String × α)) (k : String) :
    alookup l k = none ↔ k ∉ l.map Prod.fst := by
  induction l with
  | nil => simp [alookup]
  | cons p rest ih =>
      rw [alookup]
      by_cases h : p.1 = k
      · simp [h]
      · simp only [if_neg h, ih, List.map_cons, List.mem_cons]
        constructor
        · intro hk hor
          rcases hor with heq | hmem
          · exact h heq.symm
          · exact hk hmem
        · intro hk hmem
          exact hk (Or.inr hmem)

theorem processFact_ok {enr : String} {st : EnrichState} {f : Fact}
    {st1 : EnrichState} (h : processFact enr st f = Except.ok st1) :
    f.name ∉ enricherDom st ∧
      st1.fact_to_enricher = st.fact_to_enricher ++ [(f.name, enr)] := by
  rw [processFact] at h
  cases hl : alookup st.fact_to_enricher f.name with
  | some other => rw [hl] at h; cases h
  | none =>
      rw [hl] at h
      cases h
      exact ⟨(alookup_eq_none_iff _ _).mp hl, rfl⟩

theorem processFacts_ok {enr : String} {fs : List Fact} {st st1 : EnrichState}
    (h : processFacts enr st fs = Except.ok st1) :
    enricherDom st1 = enricherDom st ++ fs.map Fact.name ∧
      ((enricherDom st).Nodup → (enricherDom st1).Nodup) := by
  induction fs generalizing st with
  | nil => cases h; simp
  | cons f fs ih =>
      rw [processFacts] at h
      cases hp : processFact enr st f with
      | error e => rw [hp] at h; cases h
      | ok stm =>
          rw [hp] at h
          obtain ⟨hnotin, hfe⟩ := processFact_ok hp
          obtain ⟨hdom, hnd⟩ := ih h
          have hdm : enricherDom stm = enricherDom st ++ [f.name] := by
            simp [enricherDom, hfe]
          constructor
          · rw [hdom, hdm]
            simp
          · intro hnds
            apply hnd
            rw [hdm, List.nodup_append]
            exact ⟨hnds, List.nodup_singleton _, by
              simpa [List.disjoint_singleton] using hnotin⟩

theorem processMetric_ok {enr : String} {st : EnrichState} {m : Metric}
    {st1 : EnrichState} (h : processMetric enr st m = Except.ok st1) :
    st1.fact_to_enricher = st.fact_to_enricher := by
  rw [processMetric] at h
  cases hl : alookup st.fact_to_enricher m.name with
  | some other => rw [hl] at h; cases h
  | none => rw [hl] at h; cases h; rfl

theorem processMetrics_ok {enr : String} {ms : List Metric}
    {st st1 : EnrichState} (h : processMetrics enr st ms = Except.ok st1) :
    st1.fact_to_enricher = st.fact_to_enricher := by
  induction ms generalizing st with
  | nil => cases h; rfl
  | cons m ms ih =>
      rw [processMetrics] at h
      cases hp : processMetric enr st m with
      | error e => rw [hp] at h; cases h
      | ok stm =>
          rw [hp] at h
          rw [ih h, processMetric_ok hp]

theorem enrichOne_ok {e : Enricher} {a : Artifact} {st st1 : EnrichState}
    (h : enrichOne e a st = Except.ok st1) :
    enricherDom st1 = enricherDom st ++ ((e.run a).1).map Fact.name ∧
      ((enricherDom st).Nodup → (enricherDom st1).Nodup) := by
  rw [enrichOne] at h
  cases hf : processFacts e.name st (e.run a).1 with
  | error err => rw [hf] at h; cases h
  | ok stm =>
      rw [hf] at h
      obtain ⟨hdom, hnd⟩ := processFacts_ok hf
      have hm : enricherDom st1 = enricherDom stm := by
        simp [enricherDom, processMetrics_ok h]
      exact ⟨by rw [hm, hdom], fun hn => hm ▸ hnd hn⟩

theorem runOverArtifacts_ok {e : Enricher} {arts : List Artifact}
    {st st1 : EnrichState} (h : runOverArtifacts e st arts = Except.ok st1) :
    enricherDom st1 = enricherDom st ++
        (arts.map (fun a => ((e.run a).1).map Fact.name)).flatten ∧
      ((enricherDom st).Nodup → (enricherDom st1).Nodup) := by
  induction arts generalizing st with
  | nil => cases h; simp
  | cons a as_ ih =>
      rw [runOverArtifacts] at h
      cases hp : enrichOne e a st with
      | error err => rw [hp] at h; cases h
      | ok stm =>
          rw [hp] at h
          obtain ⟨hdom1, hnd1⟩ := enrichOne_ok hp
          obtain ⟨hdom2, hnd2⟩ := ih h
          constructor
          · rw [hdom2, hdom1]
            simp [List.append_assoc]
          · exact fun hn => hnd2 (hnd1 hn)

theorem runEnrichersFrom_ok {es : List Enricher} {arts : List Artifact}
    {st st1 : EnrichState} (h : runEnrichersFrom st es arts = Except.ok st1) :
    enricherDom st1 = enricherDom st ++
        (es.map (fun e =>
          (arts.map (fun a => ((e.run a).1).map Fact.name)).flatten)).flatten ∧
      ((enricherDom st).Nodup → (enricherDom st1).Nodup) := by
  induction es generalizing st with
  | nil => cases h; simp
  | cons e es ih =>
      rw [runEnrichersFrom] at h
      cases hp : runOverArtifacts e st arts with
      | error err => rw [hp] at h; cases h
      | ok stm =>
          rw [hp] at h
          obtain ⟨hdom1, hnd1⟩ := runOverArtifacts_ok hp
          obtain ⟨hdom2, hnd2⟩ := ih h
          constructor
          · rw [hdom2, hdom1]
            simp [List.append_assoc]
          · exact fun hn => hnd2 (hnd1 hn)

/-- If the enrichment loop of `Result.read_dir` succeeds, then no Fact
name was produced twice as a Fact across the whole run: every fact
insertion passed the freshness check of `model.py` line 76. -/
theorem enrich_ok_fact_names_nodup (es : List Enricher)
    (arts : List Artifact)
    (h : exceptIsOk (runEnrichers es arts) = true) :
    (producedFactNames es arts).Nodup := by
  cases hr : runEnrichers es arts with
  | error e => rw [hr] at h; cases h
  | ok st =>
      rw [runEnrichers] at hr
      obtain ⟨hdom, hnd⟩ := runEnrichersFrom_ok hr
      have hinit : enricherDom ⟨[], [], []⟩ = [] := rfl
      have : enricherDom st = producedFactNames es arts := by
        rw [hdom, hinit, producedFactNames]
        simp
      rw [← this]
      apply hnd
      rw [hinit]
      exact List.nodup_nil

theorem alookup_eq_some_mem {α : Type} {l : List (String × α)} {k : String}
    {v : α} (h : alookup l k = some v) : (k, v) ∈ l := by
  induction l with
  | nil => cases h
  | cons p rest ih =>
      rw [alookup] at h
      by_cases hk : p.1 = k
      · rw [if_pos hk] at h
        rw [Option.some_inj] at h
        subst h
        subst hk
        rw [Prod.mk.eta]
        exact List.mem_cons_self _ _
      · rw [if_neg hk] at h
        exact List.mem_cons_of_mem _ (ih h)

/-- `enr` produced a fact named `name` somewhere during the run: some
registered enricher with that name returns, on some artifact, a fact
called `name`. -/
def FactProducedBy (es : List Enricher) (arts : List Artifact)
    (name enr : String) : Prop :=
  ∃ e ∈ es, e.name = enr ∧ ∃ a ∈ arts, ∃ f ∈ (e.run a).1, f.name = name

/-- `enr` produced a metric named `name` somewhere during the run. -/
def MetricProducedBy (es : List Enricher) (arts : List Artifact)
    (name enr : String) : Prop :=
  ∃ e ∈ es, e.name = enr ∧ ∃ a ∈ arts, ∃ m ∈ (e.run a).2, m.name = name

theorem processFacts_entries {Q : String → String → Prop} {enr : String}
    {fs : List Fact} {st st1 : EnrichState}
    (hst : ∀ p ∈ st.fact_to_enricher, Q p.1 p.2)
    (hfs : ∀ f ∈ fs, Q f.name enr)
    (h : processFacts enr st fs = Except.ok st1) :
    ∀ p ∈ st1.fact_to_enricher, Q p.1 p.2 := by
  induction fs generalizing st with
  | nil => cases h; exact hst
  | cons f fs ih =>
      rw [processFacts] at h
      cases hp : processFact enr st f with
      | error e => rw [hp] at h; cases h
      | ok stm =>
          rw [hp] at h
          obtain ⟨-, hfe⟩ := processFact_ok hp
          refine ih ?_ (fun g hg => hfs g (List.mem_cons_of_mem _ hg)) h
          intro p hp2
          rw [hfe] at hp2
          rcases List.mem_append.mp hp2 with hmem | hmem
          · exact hst p hmem
          · rcases List.mem_singleton.mp hmem with rfl
            exact hfs f (List.mem_cons_self _ _)

theorem processFacts_error {Q : String → String → Prop} {enr : String}
    {fs : List Fact} {st : EnrichState} {err : EnrichError}
    (hst : ∀ p ∈ st.fact_to_enricher, Q p.1 p.2)
    (hfs : ∀ f ∈ fs, Q f.name enr)
    (h : processFacts enr st fs = Except.error err) :
    ∃ other name, err = EnrichError.dupFact enr other name ∧
      Q name enr ∧ Q name other := by
  induction fs generalizing st with
  | nil => cases h
  | cons f fs ih =>
      rw [processFacts] at h
      cases hp : processFact enr st f with
      | error e =>
          rw [hp] at h
          cases h
          rw [processFact] at hp
          cases hl : alookup st.fact_to_enricher f.name with
          | some other =>
              rw [hl] at hp
              cases hp
              exact ⟨other, f.name, rfl, hfs f (List.mem_cons_self _ _),
                hst (f.name, other) (alookup_eq_some_mem hl)⟩
          | none => rw [hl] at hp; cases hp
      | ok stm =>
          rw [hp] at h
          obtain ⟨-, hfe⟩ := processFact_ok hp
          refine ih ?_ (fun g hg => hfs g (List.mem_cons_of_mem _ hg)) h
          intro p hp2
          rw [hfe] at hp2
          rcases List.mem_append.mp hp2 with hmem | hmem
          · exact hst p hmem
          · rcases List.mem_singleton.mp hmem with rfl
            exact hfs f (List.mem_cons_self _ _)

theorem processMetrics_error {Q R : String → String → Prop} {enr : String}
    {ms : List Metric} {st : EnrichState} {err : EnrichError}
    (hst : ∀ p ∈ st.fact_to_enricher, Q p.1 p.2)
    (hms : ∀ m ∈ ms, R m.name enr)
    (h : processMetrics enr st ms = Except.error err) :
    ∃ other name, err = EnrichError.dupMetricOverFact enr other name ∧
      R name enr ∧ Q name other := by
  induction ms generalizing st with
  | nil => cases h
  | cons m ms ih =>
      rw [processMetrics] at h
      cases hp : processMetric enr st m with
      | error e =>
          rw [hp] at h
          cases h
          rw [processMetric] at hp
          cases hl : alookup st.fact_to_enricher m.name with
          | some other =>
              rw [hl] at hp
              cases hp
              exact ⟨other, m.name, rfl, hms m (List.mem_cons_self _ _),
                hst (m.name, other) (alookup_eq_some_mem hl)⟩
          | none => rw [hl] at hp; cases hp
      | ok stm =>
          rw [hp] at h
          have hfe := processMetric_ok hp
          refine ih ?_ (fun g hg => hms g (List.mem_cons_of_mem _ hg)) h
          intro p hp2
          rw [hfe] at hp2
          exact hst p hp2

theorem enrichOne_entries {Q : String → String → Prop} {e : Enricher}
    {a : Artifact} {st st1 : EnrichState}
    (hst : ∀ p ∈ st.fact_to_enricher, Q p.1 p.2)
    (hf : ∀ f ∈ (e.run a).1, Q f.name e.name)
    (h : enrichOne e a st = Except.ok st1) :
    ∀ p ∈ st1.fact_to_enricher, Q p.1 p.2 := by
  rw [enrichOne] at h
  cases hp : processFacts e.name st (e.run a).1 with
  | error e2 => rw [hp] at h; cases h
  | ok stm =>
      rw [hp] at h
      rw [processMetrics_ok h]
      exact processFacts_entries hst hf hp

theorem enrichOne_error {Q R : String → String → Prop} {e : Enricher}
    {a : Artifact} {st : EnrichState} {err : EnrichError}
    (hst : ∀ p ∈ st.fact_to_enricher, Q p.1 p.2)
    (hf : ∀ f ∈ (e.run a).1, Q f.name e.name)
    (hm : ∀ m ∈ (e.run a).2, R m.name e.name)
    (h : enrichOne e a st = Except.error err) :
    (∃ other name, err = EnrichError.dupFact e.name other name ∧
        Q name e.name ∧ Q name other) ∨
      (∃ other name, err = EnrichError.dupMetricOverFact e.name other name ∧
        R name e.name ∧ Q name other) := by
  rw [enrichOne] at h
  cases hp : processFacts e.name st (e.run a).1 with
  | error e2 =>
      rw [hp] at h
      cases h
      exact Or.inl (processFacts_error hst hf hp)
  | ok stm =>
      rw [hp] at h
      exact Or.inr (processMetrics_error (processFacts_entries hst hf hp) hm h)

theorem runOverArtifacts_entries {Q : String → String → Prop} {e : Enricher}
    {arts : List Artifact} {st st1 : EnrichState}
    (hst : ∀ p ∈ st.fact_to_enricher, Q p.1 p.2)
    (hf : ∀ a ∈ arts, ∀ f ∈ (e.run a).1, Q f.name e.name)
    (h : runOverArtifacts e st arts = Except.ok st1) :
    ∀ p ∈ st1.fact_to_enricher, Q p.1 p.2 := by
  induction arts generalizing st with
  | nil => cases h; exact hst
  | cons a as_ ih =>
      rw [runOverArtifacts] at h
      cases hp : enrichOne e a st with
      | error e2 => rw [hp] at h; cases h
      | ok stm =>
          rw [hp] at h
          exact ih (enrichOne_entries hst (hf a (List.mem_cons_self _ _)) hp)
            (fun a2 ha2 => hf a2 (List.mem_cons_of_mem _ ha2)) h

theorem runOverArtifacts_error {Q R : String → String → Prop} {e : Enricher}
    {arts : List Artifact} {st : EnrichState} {err : EnrichError}
    (hst : ∀ p ∈ st.fact_to_enricher, Q p.1 p.2)
    (hf : ∀ a ∈ arts, ∀ f ∈ (e.run a).1, Q f.name e.name)
    (hm : ∀ a ∈ arts, ∀ m ∈ (e.run a).2, R m.name e.name)
    (h : runOverArtifacts e st arts = Except.error err) :
    (∃ other name, err = EnrichError.dupFact e.name other name ∧
        Q name e.name ∧ Q name other) ∨
      (∃ other name, err = EnrichError.dupMetricOverFact e.name other name ∧
        R name e.name ∧ Q name other) := by
  induction arts generalizing st with
  | nil => cases h
  | cons a as_ ih =>
      rw [runOverArtifacts] at h
      cases hp : enrichOne e a st with
      | error e2 =>
          rw [hp] at h
          cases h
          exact enrichOne_error hst (hf a (List.mem_cons_self _ _))
            (hm a (List.mem_cons_self _ _)) hp
      | ok stm =>
          rw [hp] at h
          exact ih (enrichOne_entries hst (hf a (List.mem_cons_self _ _)) hp)
            (fun a2 ha2 => hf a2 (List.mem_cons_of_mem _ ha2))
            (fun a2 ha2 => hm a2 (List.mem_cons_of_mem _ ha2)) h

theorem runEnrichersFrom_error {Q R : String → String → Prop}
    {es : List Enricher} {arts : List Artifact} {st : EnrichState}
    {err : EnrichError}
    (hst : ∀ p ∈ st.fact_to_enricher, Q p.1 p.2)
    (hf : ∀ e ∈ es, ∀ a ∈ arts, ∀ f ∈ (e.run a).1, Q f.name e.name)
    (hm : ∀ e ∈ es, ∀ a ∈ arts, ∀ m ∈ (e.run a).2, R m.name e.name)
    (h : runEnrichersFrom st es arts = Except.error err) :
    (∃ enr other name, err = EnrichError.dupFact enr other name ∧
        Q name enr ∧ Q name other) ∨
      (∃ enr other name, err = EnrichError.dupMetricOverFact enr other name ∧
        R name enr ∧ Q name other) := by
  induction es generalizing st with
  | nil => cases h
  | cons e es ih =>
      rw [runEnrichersFrom] at h
      cases hp : runOverArtifacts e st arts with
      | error e2 =>
          rw [hp] at h
          cases h
          rcases runOverArtifacts_error hst (hf e (List.mem_cons_self _ _))
              (hm e (List.mem_cons_self _ _)) hp with
            ⟨other, name, heq, h1, h2⟩ | ⟨other, name, heq, h1, h2⟩
          · exact Or.inl ⟨e.name, other, name, heq, h1, h2⟩
          · exact Or.inr ⟨e.name, other, name, heq, h1, h2⟩
      | ok stm =>
          rw [hp] at h
          exact ih
            (runOverArtifacts_entries hst (hf e (List.mem_cons_self _ _)) hp)
            (fun e2 he2 => hf e2 (List.mem_cons_of_mem _ he2))
            (fun e2 he2 => hm e2 (List.mem_cons_of_mem _ he2)) h

/-- Whenever the enrichment loop fails, the error it fails with names a
genuinely colliding attribute: a fact-over-fact collision names two
enrichers that each produced the name as a Fact during the run, and a
metric-over-fact collision names an enricher that produced the name as
a Metric and one that produced it as a Fact. -/
theorem runEnrichers_error_content {es : List Enricher}
    {arts : List Artifact} {err : EnrichError}
    (h : runEnrichers es arts = Except.error err) :
    (∃ enr other name, err = EnrichError.dupFact enr other name ∧
        FactProducedBy es arts name enr ∧ FactProducedBy es arts name other) ∨
      (∃ enr other name, err = EnrichError.dupMetricOverFact enr other name ∧
        MetricProducedBy es arts name enr ∧
          FactProducedBy es arts name other) := by
  rw [runEnrichers] at h
  refine runEnrichersFrom_error ?_ ?_ ?_ h
  · intro p hp
    cases hp
  · intro e he a ha f hf
    exact ⟨e, he, rfl, a, ha, f, hf, rfl⟩
  · intro e he a ha m hm
    exact ⟨e, he, rfl, a, ha, m, hm, rfl⟩

/-- C2 (amended): whenever some Fact name is produced more than once as
a Fact across the run, Result construction fails with a
duplicate-attribute error, and the error names a colliding attribute
name together with two enrichers that genuinely produced it — either
two producers of that name as a Fact, or, when a metric-over-fact
collision is hit first, the enricher that produced the name as a
Metric and the one that produced it as a Fact.  (A Fact whose name was
previously produced only as a Metric triggers no error; see the
counterexample.) -/
theorem enrich_duplicate_fact_fails_with_dup_error (es : List Enricher)
    (arts : List Artifact)
    (h : ¬ (producedFactNames es arts).Nodup) :
    ∃ err, runEnrichers es arts = Except.error err ∧
      ((∃ enr other name, err = EnrichError.dupFact enr other name ∧
          FactProducedBy es arts name enr ∧
            FactProducedBy es arts name other) ∨
        (∃ enr other name, err = EnrichError.dupMetricOverFact enr other name ∧
          MetricProducedBy es arts name enr ∧
            FactProducedBy es arts name other)) := by
  cases hr : runEnrichers es arts with
  | ok st =>
      exact absurd (enrich_ok_fact_names_nodup es arts (by rw [hr]; rfl)) h
  | error err => exact ⟨err, rfl, runEnrichers_error_content hr⟩

/-- The duplicated-fact run used to witness
`enrich_duplicate_fact_fails_with_dup_error`: two enrichers both
produce a fact named `kernel_version`. -/
def dupFactEnrichers : List Enricher :=
  [⟨"enr1", fun _ => ([⟨"kernel_version", Value.str "6.1", none⟩], [])⟩,
   ⟨"enr2", fun _ => ([⟨"kernel_version", Value.str "6.2", none⟩], [])⟩]

/-- The artifact list for the witness run. -/
def dupFactArtifacts : List Artifact := [⟨"artifacts/etc_os-release"⟩]

/-- Witness for `enrich_duplicate_fact_fails_with_dup_error` at the
concrete duplicated-fact run. -/
theorem enrich_duplicate_fact_fails_with_dup_error_witness :
    ¬ (producedFactNames dupFactEnrichers dupFactArtifacts).Nodup ∧
      ∃ err, runEnrichers dupFactEnrichers dupFactArtifacts =
          Except.error err ∧
        ((∃ enr other name, err = EnrichError.dupFact enr other name ∧
            FactProducedBy dupFactEnrichers dupFactArtifacts name enr ∧
              FactProducedBy dupFactEnrichers dupFactArtifacts name other) ∨
          (∃ enr other name,
            err = EnrichError.dupMetricOverFact enr other name ∧
              MetricProducedBy dupFactEnrichers dupFactArtifacts name enr ∧
                FactProducedBy dupFactEnrichers dupFactArtifacts name other)) :=
  ⟨by decide,
    enrich_duplicate_fact_fails_with_dup_error dupFactEnrichers
      dupFactArtifacts (by decide)⟩

/-- C2 counterexample: the first enricher produces a METRIC named
`"throughput"`, the second then produces a FACT of that same name, and
Result construction succeeds — the run does not fail with a
duplicate-attribute error, because the provenance map records only
facts, so a fact colliding with an earlier metric-only name is not
detected. -/
theorem enrich_metric_then_fact_no_error :
    exceptIsOk (runEnrichers
        [⟨"enr_metric", fun _ => ([], [⟨"throughput", Value.int 5, none⟩])⟩,
         ⟨"enr_fact", fun _ => ([⟨"throughput", Value.str "high", none⟩], [])⟩]
        [⟨"artifacts/log"⟩]) = true ∧
      ((⟨"enr_metric",
          fun _ => ([], [⟨"throughput", Value.int 5, none⟩])⟩ :
            Enricher).run ⟨"artifacts/log"⟩).2.map Metric.name =
        ["throughput"] ∧
      ((⟨"enr_fact",
          fun _ => ([⟨"throughput", Value.str "high", none⟩], [])⟩ :
            Enricher).run ⟨"artifacts/log"⟩).1.map Fact.name =
        ["throughput"] :=
  ⟨rfl, rfl, rfl⟩

end Falba
